import Mathlib

/-!
Verification of the timeline / duration model of the "the-last-pilgrim"
repository (a chapters-based audiovisual player).

The development shallowly embeds the TypeScript source:
  * the Duration Resolver and Timeline Model of `src/lib/constants.ts` /
    `src/lib/timing.ts` (source file `part_004`),
  * the seconds-domain track resolution and seek handler of `App.tsx`.

JavaScript `number` values are modelled as exact rationals (`ℚ`);
JavaScript truthiness tests on numeric lookups (`if (table[key])`) are
modelled by `truthy` below (absent and zero are both falsy); a possibly
absent JSON artifact is modelled with `Option`.
-/

namespace Pilgrim

/-- `Track` descriptor from `types.ts`. -/
structure Track where
  artist : String
  title : String
  reason : String
  audioFile : String
deriving DecidableEq, Repr

/-- The three-role color theme from `types.ts`. -/
structure ColorTheme where
  bg : String
  text : String
  accent : String
deriving DecidableEq, Repr

/-- `Chapter` descriptor from `types.ts`. -/
structure Chapter where
  id : Nat
  title : String
  subtitle : String
  description : String
  visualPrompt : String
  colorTheme : ColorTheme
  quote : String
  video : String
  audioTrack : String
  tracks : List Track
deriving DecidableEq, Repr

/-- The `audioDurations.json` artifact shape (`AudioDurationsData` in the
source): a track-duration mapping, a per-chapter duration array and a
total-duration scalar.  `trackDurations` is modelled as a partial map
(`none` = key absent); `totalDuration` is `none` when the field is absent.
The `calculatedAt` timestamp plays no role in any computation and is
omitted. -/
structure AudioDurationsData where
  trackDurations : String → Option ℚ
  chapterDurations : List ℚ
  totalDuration : Option ℚ

/-- The `videoDurations.json` artifact shape (`VideoDurationsData`). -/
structure VideoDurationsData where
  videoDurations : String → Option ℚ

/-- JavaScript truthiness of a possibly-absent numeric field:
`undefined` and `0` are falsy, any other number is truthy. -/
def truthy : Option ℚ → Bool
  | some v => v != 0
  | none => false

/-- `FALLBACK_TRACK_DURATION_SECONDS = 180` from the source. -/
def FALLBACK_TRACK_DURATION_SECONDS : ℚ := 180

/-- `FALLBACK_VIDEO_DURATION_SECONDS = 30` from the source. -/
def FALLBACK_VIDEO_DURATION_SECONDS : ℚ := 30

/-- The `withAssetsPrefix` normalisation inside `getTrackDuration`:
prepend `"/assets/"` unless the reference already starts with it. -/
def addAssets (audioFile : String) : String :=
  if audioFile.startsWith "/assets/" then audioFile else "/assets/" ++ audioFile

/-- The `withoutAssetsPrefix` normalisation inside `getTrackDuration`:
drop a leading `"/assets/"` (the source uses `replace`, which under the
`startsWith` guard removes exactly the 8-character leading occurrence). -/
def stripAssets (audioFile : String) : String :=
  if audioFile.startsWith "/assets/" then audioFile.drop 8 else audioFile

/-- `getTrackDuration` from `constants.ts`: truthy direct lookup, then the
`"/assets/"`-prefixed key, then the stripped key, else the 180 s fallback.
The `d = none` case models `!audioDurations || !audioDurations.trackDurations`. -/
def getTrackDuration (d : Option AudioDurationsData) (audioFile : String) : ℚ :=
  match d with
  | none => FALLBACK_TRACK_DURATION_SECONDS
  | some a =>
    if truthy (a.trackDurations audioFile) then (a.trackDurations audioFile).getD 0
    else if truthy (a.trackDurations (addAssets audioFile)) then
      (a.trackDurations (addAssets audioFile)).getD 0
    else if truthy (a.trackDurations (stripAssets audioFile)) then
      (a.trackDurations (stripAssets audioFile)).getD 0
    else FALLBACK_TRACK_DURATION_SECONDS

/-- `getVideoDuration` from `constants.ts`: truthy direct lookup, else the
30 s fallback. -/
def getVideoDuration (d : Option VideoDurationsData) (videoFile : String) : ℚ :=
  match d with
  | none => FALLBACK_VIDEO_DURATION_SECONDS
  | some v =>
    if truthy (v.videoDurations videoFile) then (v.videoDurations videoFile).getD 0
    else FALLBACK_VIDEO_DURATION_SECONDS

/-- `getChapterDuration` from `constants.ts`: out-of-range index returns 0;
a present (`!== undefined`, so possibly zero) precomputed entry of
`chapterDurations` wins; otherwise the sum of the chapter's track durations.
Indices are JS numbers, modelled as `ℤ`. -/
def getChapterDuration (chapters : List Chapter) (d : Option AudioDurationsData)
    (chapterIndex : ℤ) : ℚ :=
  if chapterIndex < 0 ∨ (chapters.length : ℤ) ≤ chapterIndex then 0
  else
    let fallbackSum : ℚ :=
      match chapters.get? chapterIndex.toNat with
      | some chapter =>
        chapter.tracks.foldl (fun sum track => sum + getTrackDuration d track.audioFile) 0
      | none => 0
    match d with
    | some a =>
      match a.chapterDurations.get? chapterIndex.toNat with
      | some v => v
      | none => fallbackSum
    | none => fallbackSum

/-- The fixed `CHAPTERS` configuration constant from `constants.ts`
(the descriptive strings are the source texts verbatim). -/
def CHAPTERS : List Chapter :=
  [ { id := 1
    , title := "Movement I: The Silent Colossus"
    , subtitle := "巨像静默"
    , description := "Wide angle. A tiny human silhouette walking in an endless desert. Background is a colossal Buddha head or ancient monolith half-buried in sand, so huge the top is out of frame. Ancient stone texture, heat haze."
    , visualPrompt := "Cinematic concept art, wide shot. A minuscule human silhouette walking in a vast, empty desert. Looming in the background is a gargantuan, ancient stone head half-buried in sand, weathered and crumbling. The scale is oppressive. Color palette: Earth tones, ocher, dark gold, dusty atmosphere. High detail, 8k resolution, dramatic lighting."
    , colorTheme := { bg := "bg-amber-950", text := "text-amber-100", accent := "text-amber-500" }
    , quote := "In the shadow of forgotten gods, we are but dust in the wind."
    , video := "01.mp4"
    , audioTrack := "Colossal Echoes"
    , tracks :=
      [ { artist := "窦唯"
        , title := "高级动物"
        , reason := "窦唯后期的音乐完全脱离了\"人\"的情绪，进入了一种神性与魔性共存的状态。这种呢喃和阴郁的氛围，像极了莫高窟里那些斑驳掉色的佛像，冷静地注视着众生，充满东方式的神秘与虚无。"
        , audioFile := "a_01_01.mp3" }
      , { artist := "赵季平"
        , title := "丝绸之路幻想曲.楼兰梦"
        , reason := "经典的管弦乐与民乐结合。它不是那种欢快的异域风情，而是甚至带着一丝悲凉的辽阔。那是\"西出阳关无故人\"的听觉化，你能听到黄沙掩埋古城的痕迹。"
        , audioFile := "a_01_02.mp3" }
      , { artist := "Hans Zimmer / Lisa Gerrard"
        , title := "Sorrow (Gladiator OST)"
        , reason := "虽然出自《角斗士》，但Lisa Gerrard那自创的、无人能懂的吟唱语言，像极了失落文明的挽歌。这种超越语言的悲怆，完美契合人类作为物种面对历史长河时的寂寥。"
        , audioFile := "a_01_03.mp3" } ] }
  , { id := 2
    , title := "Movement II: The Forest of Steel"
    , subtitle := "钢铁森林"
    , description := "Inside a massive abandoned cooling tower or beneath a cyberpunk mega-structure. Rain falling from kilometers high. Giant holographic ads glitching. Industrial decay."
    , visualPrompt := "Cyberpunk dystopian concept art. Extreme low angle. A tiny human silhouette standing at the bottom of a massive, wet industrial canyon or inside a cooling tower. Rain falling from a great height. Enormous, glitching holographic advertisements dominate the dark vertical space. Color palette: Cold blue, bioluminescent green, neon purple, dark metallic tones. Blade Runner vibes. Atmospheric."
    , colorTheme := { bg := "bg-slate-900", text := "text-cyan-100", accent := "text-cyan-400" }
    , quote := "The rain washes away the history, leaving only the cold neon hum."
    , video := "02.mp4"
    , audioTrack := "Neon Rain"
    , tracks :=
      [ { artist := "Hildur Guðnadóttir"
        , title := "Vichnaya Pamyat (Chernobyl OST)"
        , reason := "必选曲目。这首曲子是为人造灾难谱写的安魂曲。大提琴的沉重呼吸声，就在模拟那种肉眼看不见的、却能摧毁一切的辐射。它既是恐惧，又是那种\"万物终将寂灭\"的绝对死寂。"
        , audioFile := "a_02_01.mp3" }
      , { artist := "Vangelis"
        , title := "Tears in Rain (Blade Runner OST)"
        , reason := "赛博朋克的圣经。\"所有这些时刻，终将消逝在时间里，像雨中的泪水。\" 这种被异化的迷失感在此刻达到顶峰。它不是悲伤，而是一种电子羊才会做的梦，是对\"存在\"本身的质疑。"
        , audioFile := "a_02_02.mp3" }
      , { artist := "Burial"
        , title := "Archangel"
        , reason := "Future Garage 风格的代表。采样中那些破碎的人声、仿佛下雨般的背景底噪、孤独的贝斯线，像极了一个人在巨大的、拥挤的、高科技的都市中行走，却感到前所未有的孤独。"
        , audioFile := "a_02_03.mp3" } ] }
  , { id := 3
    , title := "Movement III: The Gaze of the Void"
    , subtitle := "虚空注视"
    , description := "Space. A tiny human silhouette floating. Facing a massive black sphere (black hole) or a perfect geometric alien structure. Absolute silence."
    , visualPrompt := "Sci-fi masterpiece. Deep space. A tiny human astronaut silhouette floating helplessly. Directly in front is a terrifyingly massive, perfect black sphere or event horizon that consumes all light. Minimalist composition. Color palette: Stark black and white, high contrast, absolute darkness. A sense of cosmic horror and awe."
    , colorTheme := { bg := "bg-black", text := "text-gray-200", accent := "text-white" }
    , quote := "When you look long into an abyss, the abyss also looks into you."
    , video := "03.mp4"
    , audioTrack := "Abyssal Drone"
    , tracks :=
      [ { artist := "Jóhann Jóhannsson"
        , title := "Heptapod B (Arrival OST)"
        , reason := "这种音乐听起来不像是由人类创作的。它像是非线性时间的具象化，循环往复，没有起点也没有终点。它对应了你说的\"比宿命论更冰冷\"，因为它是一种高维度的俯视，人类的悲欢在其中微不足道。"
        , audioFile := "a_03_01.mp3" }
      , { artist := "Hans Zimmer"
        , title := "No Time for Caution (Interstellar OST)"
        , reason := "这里的管风琴不是为了宗教，而是为了模拟宇宙的呼吸。那种极简主义的重复（Ostinato），就是你提到的螺旋。它既是旋转的太空站，也是无法逃脱的物理定律，宏大、磅礴、甚至让人感到压抑的崇高感（Sublime）。"
        , audioFile := "a_03_02.mp3" } ] }
  , { id := 4
    , title := "Movement IV: White Oblivion"
    , subtitle := "白色湮灭"
    , description := "Blizzard. Massive objects disintegrating into shards rising up. The pilgrim sits down, covered in snow/ash."
    , visualPrompt := "Abstract cinematic art. A blinding white blizzard. Massive, undefined geometric structures are disintegrating into shards and floating upwards into the sky. A tiny human silhouette is sitting on the ground, accepting fate, slowly being buried by white snow and ash. Color palette: Overexposed white, light grey, faint silver. Ethereal, peaceful, final."
    , colorTheme := { bg := "bg-white", text := "text-slate-600", accent := "text-slate-900" }
    , quote := "And in the end, silence was the loudest sound of all."
    , video := "04.mp4"
    , audioTrack := "Fading Pulse"
    , tracks :=
      [ { artist := "Mono"
        , title := "Ashes in the Snow"
        , reason := "日本后摇乐队Mono最擅长制造\"磅礴的悲伤\"。这首曲子长达11分钟，从细微的铃声开始，层层堆叠，最后爆发成巨大的音墙。它完美诠释了《百年孤独》的结尾：一场将一切卷走的飓风。听完后，真的会有\"被抹去\"的感觉。"
        , audioFile := "a_04_01.mp3" }
      , { artist := "Pink Floyd"
        , title := "Echoes"
        , reason := "23分钟的史诗。歌词 \"Strangers passing in the street / By chance two separate glances meet\"（街上路过的陌生人/偶然间两个视线相交）。从深海的声纳声到宇宙的轰鸣，它串联了人类从诞生到消亡的所有孤独。这是对整个物种命运最温柔也最冷酷的注脚。"
        , audioFile := "a_04_02.mp3" } ] } ]

/-- `getTotalDuration` from `constants.ts`: a truthy precomputed
`totalDuration` wins, else the sum of per-chapter durations (mirrors the
`CHAPTERS.reduce`). -/
def getTotalDuration (chapters : List Chapter) (d : Option AudioDurationsData) : ℚ :=
  let derivedSum : ℚ :=
    (List.range chapters.length).foldl
      (fun total (chapterIndex : ℕ) => total + getChapterDuration chapters d (chapterIndex : ℤ)) 0
  match d with
  | some a => if truthy a.totalDuration then a.totalDuration.getD 0 else derivedSum
  | none => derivedSum

/-- `getChapterBoundaries` from `constants.ts`: starts at `[0]` and pushes
the running total after each chapter, yielding `N + 1` entries. -/
def getChapterBoundaries (chapters : List Chapter) (d : Option AudioDurationsData) : List ℚ :=
  ((List.range chapters.length).foldl
    (fun (acc : List ℚ × ℚ) (chapterIndex : ℕ) =>
      let currentTime := acc.2 + getChapterDuration chapters d (chapterIndex : ℤ)
      (acc.1 ++ [currentTime], currentTime))
    ([0], 0)).1

/-- JavaScript array indexing `a[i]` with an integer index: `undefined`
for a negative or too-large index. -/
def jsIndex (l : List ℚ) (i : ℤ) : Option ℚ :=
  if i < 0 then none else l.get? i.toNat

/-- `getChapterStartTime` from `constants.ts`: `boundaries[chapterIndex] || 0`
(for numeric entries, `|| 0` is the identity on present entries and `0` on
absent ones). -/
def getChapterStartTime (chapters : List Chapter) (d : Option AudioDurationsData)
    (chapterIndex : ℤ) : ℚ :=
  (jsIndex (getChapterBoundaries chapters d) chapterIndex).getD 0

/-- `FPS = 30` from `timing.ts`. -/
def FPS : ℚ := 30

/-- `toFrames` from `timing.ts`: `Math.round(seconds * fps)`.  JavaScript
`Math.round` rounds half towards positive infinity, which is exactly
Mathlib's `round` (`⌊x + 1/2⌋`). -/
def toFrames (seconds : ℚ) (fps : ℚ) : ℤ :=
  round (seconds * fps)

/-- `toSeconds` from `timing.ts`: `frames / fps`. -/
def toSeconds (frames : ℤ) (fps : ℚ) : ℚ :=
  (frames : ℚ) / fps

/-- `getTotalFrames` from `timing.ts`. -/
def getTotalFrames (chapters : List Chapter) (d : Option AudioDurationsData) (fps : ℚ) : ℤ :=
  toFrames (getTotalDuration chapters d) fps

/-- The `{ from, durationInFrames }` record of `timing.ts`
(`from` is a Lean keyword, hence the field name `from_`). -/
structure FrameRange where
  from_ : ℤ
  durationInFrames : ℤ
deriving DecidableEq, Repr

/-- `getChapterFrameRange` from `timing.ts`. -/
def getChapterFrameRange (chapters : List Chapter) (d : Option AudioDurationsData)
    (chapterIndex : ℤ) (fps : ℚ) : FrameRange :=
  let startTime := getChapterStartTime chapters d chapterIndex
  let duration := getChapterDuration chapters d chapterIndex
  { from_ := toFrames startTime fps, durationInFrames := toFrames duration fps }

/-- `getAllChapterFrameRanges` from `timing.ts`. -/
def getAllChapterFrameRanges (chapters : List Chapter) (d : Option AudioDurationsData)
    (fps : ℚ) : List FrameRange :=
  (List.range chapters.length).map (fun (index : ℕ) => getChapterFrameRange chapters d (index : ℤ) fps)

/-- The `{ trackIndex, frameInTrack }` result record of
`getCurrentTrackAtFrame`. -/
structure TrackPos where
  trackIndex : ℕ
  frameInTrack : ℤ
deriving DecidableEq, Repr

/-- The track-walking loop inside `getCurrentTrackAtFrame`: walk the track
list accumulating frame counts (`acc`) and the running index `i`; return
the first track whose frame span contains `frameInChapter`. -/
def findTrackAtFrame (d : Option AudioDurationsData) (fps : ℚ) (frameInChapter : ℤ) :
    List Track → ℤ → ℕ → Option TrackPos
  | [], _, _ => none
  | track :: rest, acc, i =>
    let trackFrames := toFrames (getTrackDuration d track.audioFile) fps
    if frameInChapter < acc + trackFrames then
      some { trackIndex := i, frameInTrack := frameInChapter - acc }
    else findTrackAtFrame d fps frameInChapter rest (acc + trackFrames) (i + 1)

/-- `getCurrentTrackAtFrame` from `timing.ts`: out-of-range chapter index
returns `none`; otherwise walk the chapter's tracks; past all tracks,
return the last track with `frameInTrack` pinned to its full frame
duration; an empty track list returns `none`. -/
def getCurrentTrackAtFrame (chapters : List Chapter) (d : Option AudioDurationsData)
    (chapterIndex : ℤ) (frameInChapter : ℤ) (fps : ℚ) : Option TrackPos :=
  if chapterIndex < 0 ∨ (chapters.length : ℤ) ≤ chapterIndex then none
  else
    match chapters.get? chapterIndex.toNat with
    | none => none
    | some chapter =>
      match findTrackAtFrame d fps frameInChapter chapter.tracks 0 0 with
      | some trackInfo => some trackInfo
      | none =>
        match chapter.tracks.getLast? with
        | some lastTrack =>
          some { trackIndex := chapter.tracks.length - 1
               , frameInTrack := toFrames (getTrackDuration d lastTrack.audioFile) fps }
        | none => none

/-- The `{ chapterIndex, trackIndex, frameInTrack }` result record of
`getGlobalTrackAtFrame`. -/
structure GlobalTrackPos where
  chapterIndex : ℕ
  trackIndex : ℕ
  frameInTrack : ℤ
deriving DecidableEq, Repr

/-- The chapter-walking loop inside `getGlobalTrackAtFrame`: iterate the
chapter indices accumulating frame counts; inside a containing chapter,
delegate to `getCurrentTrackAtFrame`; a `none` answer from it (empty
chapter) falls through to the next iteration, exactly as in the source. -/
def globalTrackGo (chapters : List Chapter) (d : Option AudioDurationsData) (fps : ℚ)
    (absoluteFrame : ℤ) : List ℕ → ℤ → Option GlobalTrackPos
  | [], _ => none
  | chapterIndex :: rest, accumulatedFrames =>
    let chapterFrames := toFrames (getChapterDuration chapters d chapterIndex) fps
    if absoluteFrame < accumulatedFrames + chapterFrames then
      match getCurrentTrackAtFrame chapters d chapterIndex (absoluteFrame - accumulatedFrames) fps with
      | some trackInfo =>
        some { chapterIndex := chapterIndex
             , trackIndex := trackInfo.trackIndex
             , frameInTrack := trackInfo.frameInTrack }
      | none => globalTrackGo chapters d fps absoluteFrame rest (accumulatedFrames + chapterFrames)
    else globalTrackGo chapters d fps absoluteFrame rest (accumulatedFrames + chapterFrames)

/-- `getGlobalTrackAtFrame` from `timing.ts`. -/
def getGlobalTrackAtFrame (chapters : List Chapter) (d : Option AudioDurationsData)
    (absoluteFrame : ℤ) (fps : ℚ) : Option GlobalTrackPos :=
  globalTrackGo chapters d fps absoluteFrame (List.range chapters.length) 0

/-- The `{ chapterIndex, trackIndex }` result record of `App.tsx`'s
`getCurrentAudioTrack`.  `trackIndex` is a JS number (`ℤ`): for an empty
chapter the source computes `chapter.tracks.length - 1 = -1`. -/
structure AudioTrackIdx where
  chapterIndex : ℕ
  trackIndex : ℤ
deriving DecidableEq, Repr

/-- The track-walking loop inside `getCurrentAudioTrack` (seconds domain). -/
def findAudioTrack (d : Option AudioDurationsData) (progressInChapter : ℚ) :
    List Track → ℚ → ℕ → Option ℕ
  | [], _, _ => none
  | track :: rest, acc, i =>
    let trackDuration := getTrackDuration d track.audioFile
    if progressInChapter < acc + trackDuration then some i
    else findAudioTrack d progressInChapter rest (acc + trackDuration) (i + 1)

/-- The chapter-walking loop inside `getCurrentAudioTrack`: inside a
containing chapter the source ALWAYS returns — the in-range track if the
inner loop finds one, else `tracks.length - 1`. -/
def audioTrackGo (chapters : List Chapter) (d : Option AudioDurationsData) (progress : ℚ) :
    List ℕ → ℚ → Option AudioTrackIdx
  | [], _ => none
  | chapterIdx :: rest, accumulatedTime =>
    match chapters.get? chapterIdx with
    | none => none
    | some chapter =>
      let chapterDuration := getChapterDuration chapters d chapterIdx
      if progress < accumulatedTime + chapterDuration then
        match findAudioTrack d (progress - accumulatedTime) chapter.tracks 0 0 with
        | some trackIdx => some { chapterIndex := chapterIdx, trackIndex := (trackIdx : ℤ) }
        | none => some { chapterIndex := chapterIdx, trackIndex := (chapter.tracks.length : ℤ) - 1 }
      else audioTrackGo chapters d progress rest (accumulatedTime + chapterDuration)

/-- `getCurrentAudioTrack` from `App.tsx`: which audio track should be
playing at a global elapsed `progress` in seconds. -/
def getCurrentAudioTrack (chapters : List Chapter) (d : Option AudioDurationsData)
    (progress : ℚ) : Option AudioTrackIdx :=
  audioTrackGo chapters d progress (List.range chapters.length) 0

/-- The component-state fields touched by `handleSeek` in `App.tsx`:
the shared audio element (`src` / `currentTime`), the loaded-track record
`currentAudioIndexRef`, the published chapter / track indices and global
progress, and the guards read at entry. -/
structure SeekState where
  audioSrc : String
  audioCurrentTime : ℚ
  currentAudioIndex : Option (ℕ × ℤ)
  currentChapterIndex : ℕ
  currentTrackIndex : ℤ
  currentProgress : ℚ
  isAudioStarted : Bool
  hasAudio : Bool
deriving DecidableEq, Repr

/-- `handleSeek` from `App.tsx` as a state transformer.  `none` models a
thrown `TypeError` (indexing a track that does not exist); an early
`return` leaves the state unchanged.  The wall-clock
`chapterStartTimeRef.current = Date.now()` write is not modelled (real
time).  In the `needsSwitch` branch the source also pauses and replays the
audio element; only its resulting `src` / `currentTime` are modelled. -/
def handleSeek (chapters : List Chapter) (d : Option AudioDurationsData)
    (st : SeekState) (targetProgress : ℚ) : Option SeekState :=
  if ¬ st.hasAudio ∨ ¬ st.isAudioStarted then some st
  else
    let totalDuration := getTotalDuration chapters d
    let clampedProgress := max 0 (min targetProgress totalDuration)
    match getCurrentAudioTrack chapters d clampedProgress with
    | none => some st
    | some audioTrack =>
      let chapterIndex := audioTrack.chapterIndex
      let trackIndex := audioTrack.trackIndex
      match chapters.get? chapterIndex with
      | none => none
      | some chapter =>
        let chapterStartTime := getChapterStartTime chapters d (chapterIndex : ℤ)
        let progressInChapter := clampedProgress - chapterStartTime
        let trackAccumulatedTime :=
          (chapter.tracks.take trackIndex.toNat).foldl
            (fun s track => s + getTrackDuration d track.audioFile) 0
        match (if 0 ≤ trackIndex then chapter.tracks.get? trackIndex.toNat else none) with
        | none => none
        | some track =>
          let progressInTrack := progressInChapter - trackAccumulatedTime
          let currentTrackDuration := getTrackDuration d track.audioFile
          let targetTrackTime := max 0 (min progressInTrack currentTrackDuration)
          let needsSwitch :=
            match st.currentAudioIndex with
            | none => true
            | some current => current.1 != chapterIndex || current.2 != trackIndex
          if needsSwitch then
            some { st with
                   audioSrc := track.audioFile
                 , audioCurrentTime := targetTrackTime
                 , currentAudioIndex := some (chapterIndex, trackIndex)
                 , currentChapterIndex := chapterIndex
                 , currentTrackIndex := trackIndex
                 , currentProgress := clampedProgress }
          else
            some { st with
                   audioCurrentTime := targetTrackTime
                 , currentProgress := clampedProgress }

/-! ### Helper notions and lemmas -/

/-- Specification-level prefix sum of chapter durations:
`chapterPrefix k = Σ_{i < k} getChapterDuration i`. -/
def chapterPrefix (chapters : List Chapter) (d : Option AudioDurationsData) (k : ℕ) : ℚ :=
  ((List.range k).map (fun (i : ℕ) => getChapterDuration chapters d (i : ℤ))).sum

/-- A duration table is well formed when every stored duration (per track and
per chapter) is nonnegative; the absent table is trivially well formed. -/
def NonnegTable : Option AudioDurationsData → Prop
  | none => True
  | some a =>
    (∀ k v, a.trackDurations k = some v → 0 ≤ v) ∧ (∀ v ∈ a.chapterDurations, 0 ≤ v)

theorem chapterPrefix_zero (chapters : List Chapter) (d : Option AudioDurationsData) :
    chapterPrefix chapters d 0 = 0 := rfl

theorem chapterPrefix_succ (chapters : List Chapter) (d : Option AudioDurationsData) (k : ℕ) :
    chapterPrefix chapters d (k + 1) =
      chapterPrefix chapters d k + getChapterDuration chapters d (k : ℤ) := by
  unfold chapterPrefix
  rw [List.range_succ, List.map_append, List.sum_append]
  simp

theorem getChapterBoundaries_eq (chapters : List Chapter) (d : Option AudioDurationsData) :
    getChapterBoundaries chapters d =
      (List.range (chapters.length + 1)).map (chapterPrefix chapters d) := by
  have key : ∀ n : ℕ,
      (List.range n).foldl
        (fun (acc : List ℚ × ℚ) (chapterIndex : ℕ) =>
          let currentTime := acc.2 + getChapterDuration chapters d (chapterIndex : ℤ)
          (acc.1 ++ [currentTime], currentTime))
        ([0], 0) =
      ((List.range (n + 1)).map (chapterPrefix chapters d), chapterPrefix chapters d n) := by
    intro n
    induction n with
    | zero =>
      rw [show List.range 1 = [0] from rfl]
      simp [chapterPrefix]
    | succ n ih =>
      rw [List.range_succ, List.foldl_append, ih]
      simp only [List.foldl_cons, List.foldl_nil]
      rw [List.range_succ (n := n + 1), List.map_append, ← chapterPrefix_succ]
      simp
  unfold getChapterBoundaries
  rw [key]

theorem getChapterStartTime_eq (chapters : List Chapter) (d : Option AudioDurationsData)
    (k : ℕ) (hk : k ≤ chapters.length) :
    getChapterStartTime chapters d (k : ℤ) = chapterPrefix chapters d k := by
  unfold getChapterStartTime jsIndex
  rw [getChapterBoundaries_eq]
  have hlt : ¬ ((k : ℤ) < 0) := by omega
  rw [if_neg hlt]
  have htn : ((k : ℤ)).toNat = k := Int.toNat_natCast k
  rw [htn, List.get?_eq_getElem?, List.getElem?_map,
    List.getElem?_range (by omega : k < chapters.length + 1)]
  rfl

/-- Rounding is subadditive up to one unit:
`|round (a + b) - (round a + round b)| ≤ 1`. -/
theorem abs_round_add_sub_le (a b : ℚ) :
    |round (a + b) - (round a + round b)| ≤ 1 := by
  have h1 : |a + b - round (a + b)| ≤ 1 / 2 := abs_sub_round (a + b)
  have h2 : |a - round a| ≤ 1 / 2 := abs_sub_round a
  have h3 : |b - round b| ≤ 1 / 2 := abs_sub_round b
  set z : ℤ := round (a + b) - (round a + round b) with hz
  have hcast : (z : ℚ) = -(a + b - round (a + b)) + (a - round a) + (b - round b) := by
    push_cast [hz]; ring
  have habs : |(z : ℚ)| ≤ 3 / 2 := by
    rw [hcast]
    calc |-(a + b - round (a + b)) + (a - round a) + (b - round b)|
        ≤ |-(a + b - round (a + b)) + (a - round a)| + |b - round b| := abs_add _ _
      _ ≤ |-(a + b - round (a + b))| + |a - round a| + |b - round b| := by
          have := abs_add (-(a + b - round (a + b))) (a - round a)
          linarith
      _ ≤ 1 / 2 + 1 / 2 + 1 / 2 := by
          rw [abs_neg]
          linarith
      _ = 3 / 2 := by norm_num
  by_contra hc
  push_neg at hc
  have h4 : (2 : ℤ) ≤ |z| := by omega
  have h5 : ((2 : ℤ) : ℚ) ≤ ((|z| : ℤ) : ℚ) := by exact_mod_cast h4
  rw [Int.cast_abs] at h5
  norm_num at h5
  linarith

theorem round_nonneg_of_nonneg {x : ℚ} (hx : 0 ≤ x) : 0 ≤ round x := by
  rw [round_eq]
  have h0 : (0 : ℤ) = ⌊(0 : ℚ)⌋ := by simp
  rw [h0]
  exact Int.floor_le_floor (by linarith)

theorem truthy_iff (x : Option ℚ) : truthy x = true ↔ ∃ v, x = some v ∧ v ≠ 0 := by
  cases x with
  | none => simp [truthy]
  | some v => simp [truthy]

theorem getTrackDuration_nonneg (d : Option AudioDurationsData) (hd : NonnegTable d)
    (audioFile : String) : 0 ≤ getTrackDuration d audioFile := by
  cases d with
  | none => norm_num [getTrackDuration, FALLBACK_TRACK_DURATION_SECONDS]
  | some a =>
    obtain ⟨htr, _⟩ := hd
    show 0 ≤
      (if truthy (a.trackDurations audioFile) then (a.trackDurations audioFile).getD 0
       else if truthy (a.trackDurations (addAssets audioFile)) then
         (a.trackDurations (addAssets audioFile)).getD 0
       else if truthy (a.trackDurations (stripAssets audioFile)) then
         (a.trackDurations (stripAssets audioFile)).getD 0
       else FALLBACK_TRACK_DURATION_SECONDS)
    split
    · rename_i h
      obtain ⟨v, hv, _⟩ := (truthy_iff _).mp h
      rw [hv, Option.getD_some]
      exact htr _ _ hv
    · split
      · rename_i h
        obtain ⟨v, hv, _⟩ := (truthy_iff _).mp h
        rw [hv, Option.getD_some]
        exact htr _ _ hv
      · split
        · rename_i h
          obtain ⟨v, hv, _⟩ := (truthy_iff _).mp h
          rw [hv, Option.getD_some]
          exact htr _ _ hv
        · norm_num [FALLBACK_TRACK_DURATION_SECONDS]

theorem trackSum_nonneg (d : Option AudioDurationsData) (hd : NonnegTable d)
    (tracks : List Track) (init : ℚ) (hinit : 0 ≤ init) :
    0 ≤ tracks.foldl (fun sum track => sum + getTrackDuration d track.audioFile) init := by
  induction tracks generalizing init with
  | nil => simpa
  | cons t rest ih =>
    exact ih _ (by have := getTrackDuration_nonneg d hd t.audioFile; simp only []; linarith)

theorem getChapterDuration_nonneg (chapters : List Chapter) (d : Option AudioDurationsData)
    (hd : NonnegTable d) (chapterIndex : ℤ) :
    0 ≤ getChapterDuration chapters d chapterIndex := by
  unfold getChapterDuration
  split
  · exact le_refl 0
  · cases d with
    | none =>
      simp only
      split
      · exact trackSum_nonneg none trivial _ 0 (le_refl 0)
      · exact le_refl 0
    | some a =>
      simp only
      split
      · rename_i v hv
        exact hd.2 v (List.get?_mem hv)
      · split
        · exact trackSum_nonneg (some a) hd _ 0 (le_refl 0)
        · exact le_refl 0

/-! ### C4 — boundary consistency -/

/-- C4: for every duration table and every chapter index `c` with
`0 ≤ c < N`, `getChapterStartTime (c+1) = getChapterStartTime c +
getChapterDuration c` — the boundary table is the prefix sum of chapter
durations (and `getChapterStartTime 0 = 0`). -/
theorem boundary_consistency (chapters : List Chapter) (d : Option AudioDurationsData)
    (c : ℤ) (h0 : 0 ≤ c) (hN : c < (chapters.length : ℤ)) :
    getChapterStartTime chapters d (c + 1) =
      getChapterStartTime chapters d c + getChapterDuration chapters d c ∧
    getChapterStartTime chapters d 0 = 0 := by
  obtain ⟨k, rfl⟩ : ∃ k : ℕ, c = (k : ℤ) := ⟨c.toNat, (Int.toNat_of_nonneg h0).symm⟩
  have hk : k < chapters.length := by exact_mod_cast hN
  constructor
  · have h1 : ((k : ℤ) + 1) = ((k + 1 : ℕ) : ℤ) := by push_cast; ring
    rw [h1, getChapterStartTime_eq chapters d (k + 1) (by omega),
      getChapterStartTime_eq chapters d k (by omega), chapterPrefix_succ]
  · have h0' : ((0 : ℕ) : ℤ) = (0 : ℤ) := rfl
    rw [← h0', getChapterStartTime_eq chapters d 0 (by omega), chapterPrefix_zero]

/-- C4 witness: the real chapter table with the all-fallback duration
table at chapter index 2. -/
theorem boundary_consistency_witness :
    (0 : ℤ) ≤ 2 ∧ (2 : ℤ) < (CHAPTERS.length : ℤ) ∧
    (getChapterStartTime CHAPTERS none (2 + 1) =
       getChapterStartTime CHAPTERS none 2 + getChapterDuration CHAPTERS none 2 ∧
     getChapterStartTime CHAPTERS none 0 = 0) :=
  ⟨by norm_num, by decide, boundary_consistency CHAPTERS none 2 (by norm_num) (by decide)⟩

/-! ### C6 — out-of-range chapter index -/

/-- C6 counterexample: `CHAPTERS` has 4 chapters, the index 4 lies outside
`[0, N)`, yet `getChapterStartTime 4` returns the accumulated total 1800
(the boundaries array has `N + 1` entries), not 0 as the claim states. -/
theorem chapterStartTime_out_of_range_counterexample :
    CHAPTERS.length = 4 ∧ ¬ ((0 : ℤ) ≤ 4 ∧ (4 : ℤ) < (CHAPTERS.length : ℤ)) ∧
    getChapterStartTime CHAPTERS none 4 = 1800 ∧ (1800 : ℚ) ≠ 0 := by
  refine ⟨rfl, by decide, ?_, by norm_num⟩
  norm_num [getChapterStartTime, getChapterBoundaries, jsIndex, getChapterDuration,
    getTrackDuration, CHAPTERS, FALLBACK_TRACK_DURATION_SECONDS,
    List.range_succ, List.range_zero]
  rfl

/-- C6 amended: `getChapterStartTime` returns 0 for every index outside
`[0, N]` (the boundaries array has `N + 1` entries, so the index `N` is
also addressable and yields the accumulated total rather than 0). -/
theorem chapterStartTime_out_of_range_zero (chapters : List Chapter)
    (d : Option AudioDurationsData) (i : ℤ)
    (h : i < 0 ∨ (chapters.length : ℤ) + 1 ≤ i) :
    getChapterStartTime chapters d i = 0 := by
  unfold getChapterStartTime jsIndex
  rcases h with h | h
  · rw [if_pos h]
    rfl
  · rw [if_neg (by omega)]
    have hlen : (getChapterBoundaries chapters d).length = chapters.length + 1 := by
      rw [getChapterBoundaries_eq, List.length_map, List.length_range]
    have hout : (getChapterBoundaries chapters d).length ≤ i.toNat := by omega
    rw [List.get?_eq_getElem?, List.getElem?_eq_none hout]
    rfl

/-- C6 amended witness: index −3 and index 7 (both outside `[0, 4]`)
return 0 on the real chapter table. -/
theorem chapterStartTime_out_of_range_zero_witness :
    ((-3 : ℤ) < 0 ∨ (CHAPTERS.length : ℤ) + 1 ≤ -3) ∧
    ((7 : ℤ) < 0 ∨ (CHAPTERS.length : ℤ) + 1 ≤ 7) ∧
    getChapterStartTime CHAPTERS none (-3) = 0 ∧
    getChapterStartTime CHAPTERS none 7 = 0 :=
  ⟨Or.inl (by norm_num), Or.inr (by decide),
   chapterStartTime_out_of_range_zero CHAPTERS none (-3) (Or.inl (by norm_num)),
   chapterStartTime_out_of_range_zero CHAPTERS none 7 (Or.inr (by decide))⟩

/-! ### C7 — fallback on an empty or absent duration table -/

/-- C7: with an absent duration table, or a present one whose mappings are
empty, `getTrackDuration` returns 180 and `getVideoDuration` returns 30 for
every asset reference (total functions, no error case exists). -/
theorem fallback_empty_table (a : AudioDurationsData) (v : VideoDurationsData)
    (ref : String)
    (ha : ∀ k, a.trackDurations k = none) (hv : ∀ k, v.videoDurations k = none) :
    getTrackDuration (some a) ref = 180 ∧ getVideoDuration (some v) ref = 30 ∧
    getTrackDuration none ref = 180 ∧ getVideoDuration none ref = 30 := by
  refine ⟨?_, ?_, rfl, rfl⟩
  · show (if truthy (a.trackDurations ref) then (a.trackDurations ref).getD 0
       else if truthy (a.trackDurations (addAssets ref)) then
         (a.trackDurations (addAssets ref)).getD 0
       else if truthy (a.trackDurations (stripAssets ref)) then
         (a.trackDurations (stripAssets ref)).getD 0
       else FALLBACK_TRACK_DURATION_SECONDS) = 180
    simp [ha, truthy, FALLBACK_TRACK_DURATION_SECONDS]
  · show (if truthy (v.videoDurations ref) then (v.videoDurations ref).getD 0
       else FALLBACK_VIDEO_DURATION_SECONDS) = 30
    simp [hv, truthy, FALLBACK_VIDEO_DURATION_SECONDS]

/-- C7 witness: the concrete empty artifacts at the reference `"x.mp3"`. -/
theorem fallback_empty_table_witness :
    getTrackDuration (some ⟨fun _ => none, [], none⟩) "x.mp3" = 180 ∧
    getVideoDuration (some ⟨fun _ => none⟩) "x.mp3" = 30 ∧
    getTrackDuration none "x.mp3" = 180 ∧ getVideoDuration none "x.mp3" = 30 :=
  fallback_empty_table ⟨fun _ => none, [], none⟩ ⟨fun _ => none⟩ "x.mp3"
    (fun _ => rfl) (fun _ => rfl)

/-! ### C8 — frames/seconds round trip -/

/-- C8: for every nonnegative `s` and positive `fps`,
`|toSeconds (toFrames s fps) fps - s| ≤ 1 / fps` (in fact the nearest-frame
rounding keeps the error within half a frame). -/
theorem frames_seconds_roundtrip (s fps : ℚ) (hs : 0 ≤ s) (hfps : 0 < fps) :
    |toSeconds (toFrames s fps) fps - s| ≤ 1 / fps := by
  unfold toSeconds toFrames
  have key : |(round (s * fps) : ℚ) - s * fps| ≤ 1 / 2 := by
    have h := abs_sub_round (s * fps)
    rwa [abs_sub_comm] at h
  have h1 : (round (s * fps) : ℚ) / fps - s = ((round (s * fps) : ℚ) - s * fps) / fps := by
    field_simp
    ring
  rw [h1, abs_div, abs_of_pos hfps]
  calc |(round (s * fps) : ℚ) - s * fps| / fps
      ≤ (1 / 2) / fps := div_le_div_of_nonneg_right key hfps.le
    _ ≤ 1 / fps := div_le_div_of_nonneg_right (by norm_num) hfps.le

/-- C8 witness: `s = 7/10` seconds at 30 fps. -/
theorem frames_seconds_roundtrip_witness :
    (0 : ℚ) ≤ 7 / 10 ∧ (0 : ℚ) < 30 ∧
    |toSeconds (toFrames (7 / 10) 30) 30 - 7 / 10| ≤ 1 / 30 :=
  ⟨by norm_num, by norm_num, frames_seconds_roundtrip (7 / 10) 30 (by norm_num) (by norm_num)⟩

/-! ### C10 — zero-valued entries -/

/-- C10: a duration-table entry that is exactly 0 (with the two
`"/assets/"`-alias keys also 0 or absent) is treated like an absent entry by
`getTrackDuration` (fallback 180) and by `getVideoDuration` (fallback 30),
whereas `getChapterDuration` honors a present precomputed per-chapter entry
of 0. -/
theorem zero_entry_treated_as_absent (a : AudioDurationsData) (v : VideoDurationsData)
    (ref : String) (chapters : List Chapter) (da : AudioDurationsData) (c : ℕ)
    (h1 : a.trackDurations ref = some 0)
    (h2 : a.trackDurations (addAssets ref) = some 0 ∨ a.trackDurations (addAssets ref) = none)
    (h3 : a.trackDurations (stripAssets ref) = some 0 ∨ a.trackDurations (stripAssets ref) = none)
    (h4 : v.videoDurations ref = some 0)
    (hc : c < chapters.length)
    (h5 : da.chapterDurations.get? c = some 0) :
    getTrackDuration (some a) ref = 180 ∧ getVideoDuration (some v) ref = 30 ∧
    getChapterDuration chapters (some da) (c : ℤ) = 0 := by
  refine ⟨?_, ?_, ?_⟩
  · show (if truthy (a.trackDurations ref) then (a.trackDurations ref).getD 0
       else if truthy (a.trackDurations (addAssets ref)) then
         (a.trackDurations (addAssets ref)).getD 0
       else if truthy (a.trackDurations (stripAssets ref)) then
         (a.trackDurations (stripAssets ref)).getD 0
       else FALLBACK_TRACK_DURATION_SECONDS) = 180
    rcases h2 with h2 | h2 <;> rcases h3 with h3 | h3 <;>
      simp [h1, h2, h3, truthy, FALLBACK_TRACK_DURATION_SECONDS]
  · show (if truthy (v.videoDurations ref) then (v.videoDurations ref).getD 0
       else FALLBACK_VIDEO_DURATION_SECONDS) = 30
    simp [h4, truthy, FALLBACK_VIDEO_DURATION_SECONDS]
  · unfold getChapterDuration
    rw [if_neg (by omega)]
    simp only [Int.toNat_natCast, h5]

/-- C10 witness: a table mapping `"z.mp3"` to 0 (aliases absent), a video
table mapping `"z.mp4"` to 0, and a chapter-duration array holding 0 for
chapter 0 of the real chapter list. -/
theorem zero_entry_treated_as_absent_witness :
    getTrackDuration (some ⟨fun _ => some 0, [], none⟩) "z.mp3" = 180 ∧
    getVideoDuration (some ⟨fun _ => some 0⟩) "z.mp4" = 30 ∧
    getChapterDuration CHAPTERS (some ⟨fun _ => none, [0], none⟩) ((0 : ℕ) : ℤ) = 0 :=
  zero_entry_treated_as_absent
    ⟨fun _ => some 0, [], none⟩ ⟨fun _ => some 0⟩ "z.mp3" CHAPTERS
    ⟨fun _ => none, [0], none⟩ 0 rfl (Or.inl rfl) (Or.inl rfl) rfl (by decide) rfl


/-! ### More helper lemmas (rounding, sums, loop unfoldings) -/

theorem toFrames_nonneg {x fps : ℚ} (hx : 0 ≤ x) (hfps : 0 ≤ fps) :
    0 ≤ toFrames x fps :=
  round_nonneg_of_nonneg (mul_nonneg hx hfps)

theorem foldl_add_getChapterDuration (chapters : List Chapter)
    (d : Option AudioDurationsData) (l : List ℕ) (init : ℚ) :
    l.foldl (fun total (chapterIndex : ℕ) =>
        total + getChapterDuration chapters d (chapterIndex : ℤ)) init
      = init + (l.map (fun (i : ℕ) => getChapterDuration chapters d (i : ℤ))).sum := by
  induction l generalizing init with
  | nil => simp
  | cons x xs ih =>
    simp only [List.foldl_cons, List.map_cons, List.sum_cons, ih]
    ring

theorem getTotalDuration_none (chapters : List Chapter) :
    getTotalDuration chapters none =
      (List.range chapters.length).foldl
        (fun total (chapterIndex : ℕ) =>
          total + getChapterDuration chapters none (chapterIndex : ℤ)) 0 := rfl

theorem getTotalDuration_some (chapters : List Chapter) (a : AudioDurationsData) :
    getTotalDuration chapters (some a) =
      if truthy a.totalDuration then a.totalDuration.getD 0
      else (List.range chapters.length).foldl
        (fun total (chapterIndex : ℕ) =>
          total + getChapterDuration chapters (some a) (chapterIndex : ℤ)) 0 := rfl

theorem globalTrackGo_cons (chapters : List Chapter) (d : Option AudioDurationsData)
    (fps : ℚ) (frame : ℤ) (ci : ℕ) (rest : List ℕ) (acc : ℤ) :
    globalTrackGo chapters d fps frame (ci :: rest) acc =
      (if frame < acc + toFrames (getChapterDuration chapters d (ci : ℤ)) fps then
        match getCurrentTrackAtFrame chapters d (ci : ℤ) (frame - acc) fps with
        | some trackInfo =>
          some { chapterIndex := ci
               , trackIndex := trackInfo.trackIndex
               , frameInTrack := trackInfo.frameInTrack }
        | none => globalTrackGo chapters d fps frame rest
            (acc + toFrames (getChapterDuration chapters d (ci : ℤ)) fps)
      else globalTrackGo chapters d fps frame rest
        (acc + toFrames (getChapterDuration chapters d (ci : ℤ)) fps)) := rfl

theorem audioTrackGo_cons (chapters : List Chapter) (d : Option AudioDurationsData)
    (progress : ℚ) (ci : ℕ) (rest : List ℕ) (acc : ℚ) :
    audioTrackGo chapters d progress (ci :: rest) acc =
      (match chapters.get? ci with
      | none => none
      | some chapter =>
        if progress < acc + getChapterDuration chapters d (ci : ℤ) then
          match findAudioTrack d (progress - acc) chapter.tracks 0 0 with
          | some trackIdx => some { chapterIndex := ci, trackIndex := (trackIdx : ℤ) }
          | none => some { chapterIndex := ci, trackIndex := (chapter.tracks.length : ℤ) - 1 }
        else audioTrackGo chapters d progress rest
          (acc + getChapterDuration chapters d (ci : ℤ))) := rfl

theorem globalTrackGo_none (chapters : List Chapter) (d : Option AudioDurationsData)
    (fps : ℚ) (frame : ℤ) (hd : NonnegTable d) (hfps : 0 ≤ fps) :
    ∀ (l : List ℕ) (acc : ℤ),
      acc + (l.map (fun (i : ℕ) =>
        toFrames (getChapterDuration chapters d (i : ℤ)) fps)).sum ≤ frame →
      globalTrackGo chapters d fps frame l acc = none := by
  intro l
  induction l with
  | nil => intro acc _; rfl
  | cons ci rest ih =>
    intro acc hge
    have hnn : 0 ≤ toFrames (getChapterDuration chapters d (ci : ℤ)) fps :=
      toFrames_nonneg (getChapterDuration_nonneg chapters d hd _) hfps
    have hrest : 0 ≤ (rest.map (fun (i : ℕ) =>
        toFrames (getChapterDuration chapters d (i : ℤ)) fps)).sum :=
      List.sum_nonneg (by
        intro x hx
        obtain ⟨i, _, rfl⟩ := List.mem_map.mp hx
        exact toFrames_nonneg (getChapterDuration_nonneg chapters d hd _) hfps)
    rw [List.map_cons, List.sum_cons] at hge
    rw [globalTrackGo_cons, if_neg (by omega)]
    exact ih _ (by omega)

theorem audioTrackGo_none (chapters : List Chapter) (d : Option AudioDurationsData)
    (progress : ℚ) (hd : NonnegTable d) :
    ∀ (l : List ℕ) (acc : ℚ),
      acc + (l.map (fun (i : ℕ) => getChapterDuration chapters d (i : ℤ))).sum ≤ progress →
      audioTrackGo chapters d progress l acc = none := by
  intro l
  induction l with
  | nil => intro acc _; rfl
  | cons ci rest ih =>
    intro acc hge
    have hnn : 0 ≤ getChapterDuration chapters d (ci : ℤ) :=
      getChapterDuration_nonneg chapters d hd _
    have hrest : 0 ≤ (rest.map (fun (i : ℕ) => getChapterDuration chapters d (i : ℤ))).sum :=
      List.sum_nonneg (by
        intro x hx
        obtain ⟨i, _, rfl⟩ := List.mem_map.mp hx
        exact getChapterDuration_nonneg chapters d hd _)
    rw [List.map_cons, List.sum_cons] at hge
    rw [audioTrackGo_cons]
    cases hch : chapters.get? ci with
    | none => rfl
    | some chapter =>
      simp only
      rw [if_neg (by linarith)]
      exact ih _ (by linarith)

/-- Evaluation rule for `getChapterDuration` when no precomputed entry is
present: the track-duration sum of the chapter at the index. -/
theorem getChapterDuration_eval (chapters : List Chapter) (d : Option AudioDurationsData)
    (k : ℕ) (ch : Chapter) (hch : chapters.get? k = some ch)
    (hnone : ∀ a, d = some a → a.chapterDurations.get? k = none) :
    getChapterDuration chapters d (k : ℤ) =
      ch.tracks.foldl (fun sum track => sum + getTrackDuration d track.audioFile) 0 := by
  have hk : k < chapters.length := by
    by_contra hout
    rw [List.get?_eq_getElem?, List.getElem?_eq_none (by omega)] at hch
    exact Option.noConfusion hch
  unfold getChapterDuration
  rw [if_neg (by omega)]
  simp only [Int.toNat_natCast, hch]
  cases d with
  | none => rfl
  | some a => simp only [hnone a rfl]

/-- Evaluation rule for `getChapterDuration` when a precomputed entry is
present: the stored entry wins. -/
theorem getChapterDuration_entry (chapters : List Chapter) (a : AudioDurationsData)
    (k : ℕ) (v : ℚ) (hk : k < chapters.length)
    (hv : a.chapterDurations.get? k = some v) :
    getChapterDuration chapters (some a) (k : ℤ) = v := by
  unfold getChapterDuration
  rw [if_neg (by omega)]
  simp only [Int.toNat_natCast, hv]

/-! ### C2 — chapter frame ranges at boundaries -/

/-- The duration table used to refute C2: every chapter lasts 1/75 s
(0.4 frames at 30 fps), so per-chapter rounding drifts. -/
def dC2 : AudioDurationsData :=
  { trackDurations := fun _ => none
  , chapterDurations := [1/75, 1/75, 1/75, 1/75]
  , totalDuration := none }

/-- C2 counterexample: with chapter durations of 1/75 s each at 30 fps,
`getChapterFrameRange 2 .from = round(0.8) = 1` but
`getChapterFrameRange 1 .from + durationInFrames = round(0.4) + round(0.4)
= 0`, so consecutive chapter frame ranges do NOT abut exactly. -/
theorem chapter_ranges_abut_counterexample :
    (1 : ℤ) + 1 < (CHAPTERS.length : ℤ) ∧
    (getChapterFrameRange CHAPTERS (some dC2) (1 + 1) 30).from_ = 1 ∧
    (getChapterFrameRange CHAPTERS (some dC2) 1 30).from_ +
      (getChapterFrameRange CHAPTERS (some dC2) 1 30).durationInFrames = 0 := by
  have hP2 : chapterPrefix CHAPTERS (some dC2) 2 = 2/75 := by
    rw [show (2 : ℕ) = 1 + 1 from rfl, chapterPrefix_succ, chapterPrefix_succ,
      chapterPrefix_zero]
    norm_num
    rw [show getChapterDuration CHAPTERS (some dC2) 0 = 1/75 from rfl,
      show getChapterDuration CHAPTERS (some dC2) 1 = 1/75 from rfl]
    norm_num
  have hP1 : chapterPrefix CHAPTERS (some dC2) 1 = 1/75 := by
    rw [show (1 : ℕ) = 0 + 1 from rfl, chapterPrefix_succ, chapterPrefix_zero]
    norm_num
    rw [show getChapterDuration CHAPTERS (some dC2) 0 = 1/75 from rfl]
  refine ⟨by decide, ?_, ?_⟩
  · unfold getChapterFrameRange
    simp only
    rw [show (1 + 1 : ℤ) = ((2 : ℕ) : ℤ) by norm_num,
      getChapterStartTime_eq CHAPTERS (some dC2) 2 (by decide), hP2]
    norm_num [toFrames, round_eq]
  · unfold getChapterFrameRange
    simp only
    rw [show (1 : ℤ) = ((1 : ℕ) : ℤ) by norm_num,
      getChapterStartTime_eq CHAPTERS (some dC2) 1 (by decide), hP1,
      show getChapterDuration CHAPTERS (some dC2) ((1 : ℕ) : ℤ) = 1/75 from rfl]
    norm_num [toFrames, round_eq]

/-- C2 amended: consecutive chapter frame ranges abut up to at most one
frame of rounding drift: `|range(c+1).from - (range(c).from +
range(c).durationInFrames)| ≤ 1` for every duration table, every fps and
every `c` with `0 ≤ c` and `c + 1 < N`; exact abutment is not guaranteed
because each `from` is rounded independently. -/
theorem chapter_ranges_abut_within_one (chapters : List Chapter)
    (d : Option AudioDurationsData) (fps : ℚ) (c : ℤ)
    (h0 : 0 ≤ c) (hN : c + 1 < (chapters.length : ℤ)) :
    |(getChapterFrameRange chapters d (c + 1) fps).from_ -
      ((getChapterFrameRange chapters d c fps).from_ +
        (getChapterFrameRange chapters d c fps).durationInFrames)| ≤ 1 := by
  obtain ⟨k, rfl⟩ : ∃ k : ℕ, c = (k : ℤ) := ⟨c.toNat, (Int.toNat_of_nonneg h0).symm⟩
  unfold getChapterFrameRange
  simp only
  have h1 : ((k : ℤ) + 1) = ((k + 1 : ℕ) : ℤ) := by push_cast; ring
  rw [h1, getChapterStartTime_eq chapters d (k + 1) (by omega),
    getChapterStartTime_eq chapters d k (by omega), chapterPrefix_succ]
  unfold toFrames
  rw [add_mul]
  exact abs_round_add_sub_le _ _

/-- C2 amended witness: the real chapter table with the all-fallback
duration table at `c = 0`, 30 fps. -/
theorem chapter_ranges_abut_within_one_witness :
    (0 : ℤ) ≤ 0 ∧ (0 : ℤ) + 1 < (CHAPTERS.length : ℤ) ∧
    |(getChapterFrameRange CHAPTERS none (0 + 1) 30).from_ -
      ((getChapterFrameRange CHAPTERS none 0 30).from_ +
        (getChapterFrameRange CHAPTERS none 0 30).durationInFrames)| ≤ 1 :=
  ⟨le_refl 0, by decide,
   chapter_ranges_abut_within_one CHAPTERS none 30 0 (le_refl 0) (by decide)⟩

/-! ### C5 — total-duration consistency -/

/-- The duration table used to refute C5: a truthy precomputed total (999)
that disagrees with the per-chapter sum (1800). -/
def dC5 : AudioDurationsData :=
  { trackDurations := fun _ => none
  , chapterDurations := []
  , totalDuration := some 999 }

/-- C5 counterexample: with a precomputed `totalDuration` of 999 s,
`getTotalDuration` returns 999 while
`getChapterStartTime (N-1) + getChapterDuration (N-1)` is 1800 — the
claimed identity fails for this duration-table artifact. -/
theorem total_consistency_counterexample :
    getTotalDuration CHAPTERS (some dC5) = 999 ∧
    getChapterStartTime CHAPTERS (some dC5) ((CHAPTERS.length : ℤ) - 1) +
      getChapterDuration CHAPTERS (some dC5) ((CHAPTERS.length : ℤ) - 1) = 1800 ∧
    (999 : ℚ) ≠ 1800 := by
  have hnone : ∀ a, some dC5 = some a → ∀ k : ℕ, a.chapterDurations.get? k = none := by
    intro a ha k
    cases ha
    rfl
  have e0 : getChapterDuration CHAPTERS (some dC5) ((0 : ℕ) : ℤ) = 540 := by
    rw [getChapterDuration_eval CHAPTERS (some dC5) 0 _ rfl (fun a ha => hnone a ha 0)]
    norm_num [getTrackDuration, dC5, truthy, FALLBACK_TRACK_DURATION_SECONDS]
  have e1 : getChapterDuration CHAPTERS (some dC5) ((1 : ℕ) : ℤ) = 540 := by
    rw [getChapterDuration_eval CHAPTERS (some dC5) 1 _ rfl (fun a ha => hnone a ha 1)]
    norm_num [getTrackDuration, dC5, truthy, FALLBACK_TRACK_DURATION_SECONDS]
  have e2 : getChapterDuration CHAPTERS (some dC5) ((2 : ℕ) : ℤ) = 360 := by
    rw [getChapterDuration_eval CHAPTERS (some dC5) 2 _ rfl (fun a ha => hnone a ha 2)]
    norm_num [getTrackDuration, dC5, truthy, FALLBACK_TRACK_DURATION_SECONDS]
  have e3 : getChapterDuration CHAPTERS (some dC5) ((3 : ℕ) : ℤ) = 360 := by
    rw [getChapterDuration_eval CHAPTERS (some dC5) 3 _ rfl (fun a ha => hnone a ha 3)]
    norm_num [getTrackDuration, dC5, truthy, FALLBACK_TRACK_DURATION_SECONDS]
  refine ⟨rfl, ?_, by norm_num⟩
  rw [show ((CHAPTERS.length : ℤ) - 1) = ((3 : ℕ) : ℤ) by decide,
    getChapterStartTime_eq CHAPTERS (some dC5) 3 (by decide)]
  rw [show (3 : ℕ) = 2 + 1 from rfl, chapterPrefix_succ,
    show (2 : ℕ) = 1 + 1 from rfl, chapterPrefix_succ,
    show (1 : ℕ) = 0 + 1 from rfl, chapterPrefix_succ, chapterPrefix_zero]
  rw [e0, e1, e2]
  rw [show ((2 : ℕ) + 1 : ℕ) = (3 : ℕ) from rfl, e3]
  norm_num

/-- C5 amended: `getTotalDuration = getChapterStartTime (N-1) +
getChapterDuration (N-1)` holds for every nonempty chapter list and every
duration table whose precomputed total, when present and truthy, agrees
with the sum of the per-chapter durations (which is what the generator
script `calculateAudioDurations.js` produces); in particular it holds
unconditionally when no truthy precomputed total is stored. -/
theorem total_consistency (chapters : List Chapter) (d : Option AudioDurationsData)
    (hne : chapters ≠ [])
    (hcons : ∀ a, d = some a → truthy a.totalDuration = true →
      a.totalDuration.getD 0 = chapterPrefix chapters d chapters.length) :
    getTotalDuration chapters d =
      getChapterStartTime chapters d ((chapters.length : ℤ) - 1) +
      getChapterDuration chapters d ((chapters.length : ℤ) - 1) := by
  have hN : 0 < chapters.length := List.length_pos.mpr hne
  have hidx : ((chapters.length : ℤ) - 1) = ((chapters.length - 1 : ℕ) : ℤ) := by omega
  have hsucc := chapterPrefix_succ chapters d (chapters.length - 1)
  rw [show chapters.length - 1 + 1 = chapters.length by omega] at hsucc
  have hrhs : getChapterStartTime chapters d ((chapters.length : ℤ) - 1) +
      getChapterDuration chapters d ((chapters.length : ℤ) - 1) =
      chapterPrefix chapters d chapters.length := by
    rw [hidx, getChapterStartTime_eq chapters d (chapters.length - 1) (by omega)]
    exact hsucc.symm
  rw [hrhs]
  cases d with
  | none =>
    rw [getTotalDuration_none, foldl_add_getChapterDuration]
    simp [chapterPrefix]
  | some a =>
    rw [getTotalDuration_some]
    by_cases ht : truthy a.totalDuration
    · rw [if_pos ht]
      exact hcons a rfl ht
    · rw [if_neg ht, foldl_add_getChapterDuration]
      simp [chapterPrefix]

/-- C5 amended witness: the real chapter table with the all-fallback
duration table (no precomputed total present). -/
theorem total_consistency_witness :
    CHAPTERS ≠ [] ∧
    getTotalDuration CHAPTERS none =
      getChapterStartTime CHAPTERS none ((CHAPTERS.length : ℤ) - 1) +
      getChapterDuration CHAPTERS none ((CHAPTERS.length : ℤ) - 1) :=
  ⟨by decide, total_consistency CHAPTERS none (by decide) (fun a h => nomatch h)⟩


/-! ### C1 — behavior at and beyond the total duration -/

/-- C1 counterexample: with the all-fallback duration table the total
duration is 1800 s = 54000 frames; at exactly the total (and hence at every
position "at or beyond" it) `getGlobalTrackAtFrame` and
`getCurrentAudioTrack` return `none` — NOT the last chapter's last track
with a clamped offset.  The chapter loops only clamp within a chapter;
past the final boundary they fall through and return null. -/
theorem tail_clamp_counterexample :
    getTotalDuration CHAPTERS none = 1800 ∧
    getTotalFrames CHAPTERS none 30 = 54000 ∧
    getGlobalTrackAtFrame CHAPTERS none 54000 30 = none ∧
    getCurrentAudioTrack CHAPTERS none 1800 = none := by
  have e0 : getChapterDuration CHAPTERS none ((0 : ℕ) : ℤ) = 540 := by
    rw [getChapterDuration_eval CHAPTERS none 0 _ rfl (fun a ha => nomatch ha)]
    norm_num [getTrackDuration, FALLBACK_TRACK_DURATION_SECONDS]
  have e1 : getChapterDuration CHAPTERS none ((1 : ℕ) : ℤ) = 540 := by
    rw [getChapterDuration_eval CHAPTERS none 1 _ rfl (fun a ha => nomatch ha)]
    norm_num [getTrackDuration, FALLBACK_TRACK_DURATION_SECONDS]
  have e2 : getChapterDuration CHAPTERS none ((2 : ℕ) : ℤ) = 360 := by
    rw [getChapterDuration_eval CHAPTERS none 2 _ rfl (fun a ha => nomatch ha)]
    norm_num [getTrackDuration, FALLBACK_TRACK_DURATION_SECONDS]
  have e3 : getChapterDuration CHAPTERS none ((3 : ℕ) : ℤ) = 360 := by
    rw [getChapterDuration_eval CHAPTERS none 3 _ rfl (fun a ha => nomatch ha)]
    norm_num [getTrackDuration, FALLBACK_TRACK_DURATION_SECONDS]
  have hP4 : chapterPrefix CHAPTERS none 4 = 1800 := by
    rw [show (4 : ℕ) = 3 + 1 from rfl, chapterPrefix_succ,
      show (3 : ℕ) = 2 + 1 from rfl, chapterPrefix_succ,
      show (2 : ℕ) = 1 + 1 from rfl, chapterPrefix_succ,
      show (1 : ℕ) = 0 + 1 from rfl, chapterPrefix_succ, chapterPrefix_zero]
    rw [e0, e1, e2]
    rw [show ((2 : ℕ) + 1 : ℕ) = (3 : ℕ) from rfl, e3]
    norm_num
  have htot : getTotalDuration CHAPTERS none = 1800 := by
    rw [getTotalDuration_none, foldl_add_getChapterDuration]
    have hmap : ((List.range CHAPTERS.length).map
        (fun (i : ℕ) => getChapterDuration CHAPTERS none (i : ℤ))).sum =
        chapterPrefix CHAPTERS none 4 := rfl
    rw [hmap, hP4]
    norm_num
  have hfsum : ((List.range CHAPTERS.length).map
      (fun (i : ℕ) => toFrames (getChapterDuration CHAPTERS none (i : ℤ)) 30)).sum
      = 54000 := by
    rw [show List.range CHAPTERS.length = [0, 1, 2, 3] from rfl]
    simp only [List.map_cons, List.map_nil, List.sum_cons, List.sum_nil]
    rw [e0, e1, e2, e3]
    norm_num [toFrames, round_eq]
  refine ⟨htot, ?_, ?_, ?_⟩
  · unfold getTotalFrames
    rw [htot]
    norm_num [toFrames, round_eq]
  · show globalTrackGo CHAPTERS none 30 54000 (List.range CHAPTERS.length) 0 = none
    exact globalTrackGo_none CHAPTERS none 30 54000 trivial (by norm_num) _ 0
      (by rw [hfsum]; norm_num)
  · show audioTrackGo CHAPTERS none 1800 (List.range CHAPTERS.length) 0 = none
    refine audioTrackGo_none CHAPTERS none 1800 trivial _ 0 ?_
    have hmap : ((List.range CHAPTERS.length).map
        (fun (i : ℕ) => getChapterDuration CHAPTERS none (i : ℤ))).sum =
        chapterPrefix CHAPTERS none 4 := rfl
    rw [hmap, hP4]
    norm_num

/-- C1 amended: for every duration table with nonnegative entries and every
nonnegative fps, a position at or beyond the end of the final chapter
returns `none` in both domains: in the frame domain once the absolute frame
reaches the sum of the per-chapter frame counts, and in the seconds domain
once the progress reaches the sum of the per-chapter durations.  The
clamped last-track answer of the claim is produced only for positions that
still fall strictly inside some chapter span. -/
theorem past_end_returns_none (chapters : List Chapter) (d : Option AudioDurationsData)
    (fps : ℚ) (hd : NonnegTable d) (hfps : 0 ≤ fps) :
    (∀ frame : ℤ,
      ((List.range chapters.length).map
        (fun (i : ℕ) => toFrames (getChapterDuration chapters d (i : ℤ)) fps)).sum ≤ frame →
      getGlobalTrackAtFrame chapters d frame fps = none) ∧
    (∀ progress : ℚ, chapterPrefix chapters d chapters.length ≤ progress →
      getCurrentAudioTrack chapters d progress = none) := by
  constructor
  · intro frame hge
    show globalTrackGo chapters d fps frame (List.range chapters.length) 0 = none
    exact globalTrackGo_none chapters d fps frame hd hfps _ 0 (by omega)
  · intro progress hge
    show audioTrackGo chapters d progress (List.range chapters.length) 0 = none
    refine audioTrackGo_none chapters d progress hd _ 0 ?_
    rw [zero_add]
    exact hge

/-- C1 amended witness: the real chapter table with the all-fallback
duration table, at frame 54000 (= the frame-domain end) and at 1800 s
(= the seconds-domain end). -/
theorem past_end_returns_none_witness :
    (((List.range CHAPTERS.length).map
        (fun (i : ℕ) => toFrames (getChapterDuration CHAPTERS none (i : ℤ)) 30)).sum
      ≤ (54000 : ℤ)) ∧
    getGlobalTrackAtFrame CHAPTERS none 54000 30 = none ∧
    (chapterPrefix CHAPTERS none CHAPTERS.length ≤ (1800 : ℚ)) ∧
    getCurrentAudioTrack CHAPTERS none 1800 = none := by
  have e0 : getChapterDuration CHAPTERS none ((0 : ℕ) : ℤ) = 540 := by
    rw [getChapterDuration_eval CHAPTERS none 0 _ rfl (fun a ha => nomatch ha)]
    norm_num [getTrackDuration, FALLBACK_TRACK_DURATION_SECONDS]
  have e1 : getChapterDuration CHAPTERS none ((1 : ℕ) : ℤ) = 540 := by
    rw [getChapterDuration_eval CHAPTERS none 1 _ rfl (fun a ha => nomatch ha)]
    norm_num [getTrackDuration, FALLBACK_TRACK_DURATION_SECONDS]
  have e2 : getChapterDuration CHAPTERS none ((2 : ℕ) : ℤ) = 360 := by
    rw [getChapterDuration_eval CHAPTERS none 2 _ rfl (fun a ha => nomatch ha)]
    norm_num [getTrackDuration, FALLBACK_TRACK_DURATION_SECONDS]
  have e3 : getChapterDuration CHAPTERS none ((3 : ℕ) : ℤ) = 360 := by
    rw [getChapterDuration_eval CHAPTERS none 3 _ rfl (fun a ha => nomatch ha)]
    norm_num [getTrackDuration, FALLBACK_TRACK_DURATION_SECONDS]
  have hfsum : ((List.range CHAPTERS.length).map
      (fun (i : ℕ) => toFrames (getChapterDuration CHAPTERS none (i : ℤ)) 30)).sum
      = 54000 := by
    rw [show List.range CHAPTERS.length = [0, 1, 2, 3] from rfl]
    simp only [List.map_cons, List.map_nil, List.sum_cons, List.sum_nil]
    rw [e0, e1, e2, e3]
    norm_num [toFrames, round_eq]
  have hP4 : chapterPrefix CHAPTERS none CHAPTERS.length = 1800 := by
    rw [show CHAPTERS.length = 4 from rfl]
    rw [show (4 : ℕ) = 3 + 1 from rfl, chapterPrefix_succ,
      show (3 : ℕ) = 2 + 1 from rfl, chapterPrefix_succ,
      show (2 : ℕ) = 1 + 1 from rfl, chapterPrefix_succ,
      show (1 : ℕ) = 0 + 1 from rfl, chapterPrefix_succ, chapterPrefix_zero]
    rw [e0, e1, e2]
    rw [show ((2 : ℕ) + 1 : ℕ) = (3 : ℕ) from rfl, e3]
    norm_num
  refine ⟨by rw [hfsum], ?_, by rw [hP4], ?_⟩
  · exact (past_end_returns_none CHAPTERS none 30 trivial (by norm_num)).1 54000
      (by rw [hfsum])
  · exact (past_end_returns_none CHAPTERS none 30 trivial (by norm_num)).2 1800
      (by rw [hP4])



/-- The synthetic one-track chapter used by the C3 counterexample. -/
def cexChapter : Chapter :=
  { id := 1, title := "t", subtitle := "s", description := "d", visualPrompt := "v"
  , colorTheme := { bg := "b", text := "t", accent := "a" }
  , quote := "q", video := "w", audioTrack := "m"
  , tracks := [ { artist := "x", title := "y", reason := "z", audioFile := "a.mp3" } ] }

/-- The duration table used to refute C3: the single track has a stored
duration of −5 s while the chapter entry says 10 s. -/
def dC3 : AudioDurationsData :=
  { trackDurations := fun _ => some (-5)
  , chapterDurations := [10]
  , totalDuration := none }

/-! ### C3 — in-range track triples -/

theorem findTrackAtFrame_sound (d : Option AudioDurationsData) (fps : ℚ) (fic : ℤ) :
    ∀ (tracks : List Track) (acc : ℤ) (i : ℕ) (r : TrackPos),
      acc ≤ fic →
      findTrackAtFrame d fps fic tracks acc i = some r →
      ∃ k tr, tracks.get? k = some tr ∧ r.trackIndex = i + k ∧
        0 ≤ r.frameInTrack ∧
        r.frameInTrack < toFrames (getTrackDuration d tr.audioFile) fps := by
  intro tracks
  induction tracks with
  | nil =>
    intro acc i r _ h
    exact absurd h (by simp [findTrackAtFrame])
  | cons t rest ih =>
    intro acc i r hacc h
    rw [show findTrackAtFrame d fps fic (t :: rest) acc i =
        (if fic < acc + toFrames (getTrackDuration d t.audioFile) fps then
          some { trackIndex := i, frameInTrack := fic - acc }
        else findTrackAtFrame d fps fic rest
          (acc + toFrames (getTrackDuration d t.audioFile) fps) (i + 1)) from rfl] at h
    by_cases hc : fic < acc + toFrames (getTrackDuration d t.audioFile) fps
    · rw [if_pos hc] at h
      cases h
      refine ⟨0, t, rfl, by simp, by simp only []; omega, by simp only []; omega⟩
    · rw [if_neg hc] at h
      obtain ⟨k, tr, hget, hidx, h0, hlt⟩ := ih _ _ _ (by omega) h
      exact ⟨k + 1, tr, by simpa using hget, by omega, h0, hlt⟩

theorem getCurrentTrackAtFrame_sound (chapters : List Chapter)
    (d : Option AudioDurationsData) (fps : ℚ) (hd : NonnegTable d) (hfps : 0 ≤ fps)
    (k : ℕ) (ch : Chapter) (hch : chapters.get? k = some ch) (hne : ch.tracks ≠ [])
    (fic : ℤ) (hfic : 0 ≤ fic) :
    ∃ r, getCurrentTrackAtFrame chapters d (k : ℤ) fic fps = some r ∧
      ∃ tr, ch.tracks.get? r.trackIndex = some tr ∧
        0 ≤ r.frameInTrack ∧
        r.frameInTrack ≤ toFrames (getTrackDuration d tr.audioFile) fps := by
  have hk : k < chapters.length := (List.get?_eq_some.mp hch).1
  unfold getCurrentTrackAtFrame
  rw [if_neg (by omega)]
  simp only [Int.toNat_natCast, hch]
  cases hfind : findTrackAtFrame d fps fic ch.tracks 0 0 with
  | some r0 =>
    obtain ⟨j, tr, hget, hidx, h0, hlt⟩ :=
      findTrackAtFrame_sound d fps fic ch.tracks 0 0 r0 hfic hfind
    refine ⟨r0, rfl, tr, ?_, h0, hlt.le⟩
    rw [hidx, Nat.zero_add]
    exact hget
  | none =>
    rw [List.getLast?_eq_getLast_of_ne_nil hne]
    have hlen : 0 < ch.tracks.length := List.length_pos.mpr hne
    refine ⟨_, rfl, ch.tracks.getLast hne, ?_, ?_, le_refl _⟩
    · simp only []
      rw [List.getLast_eq_get ch.tracks hne]
      exact List.get?_eq_get (by omega)
    · exact toFrames_nonneg (getTrackDuration_nonneg d hd _) hfps

theorem globalTrackGo_sound (chapters : List Chapter) (d : Option AudioDurationsData)
    (fps : ℚ) (frame : ℤ) (hd : NonnegTable d) (hfps : 0 ≤ fps)
    (hne : ∀ ch ∈ chapters, ch.tracks ≠ []) :
    ∀ (l : List ℕ) (acc : ℤ), (∀ ci ∈ l, ci < chapters.length) → acc ≤ frame →
    ∀ r, globalTrackGo chapters d fps frame l acc = some r →
      ∃ ch, chapters.get? r.chapterIndex = some ch ∧
        ∃ tr, ch.tracks.get? r.trackIndex = some tr ∧
          0 ≤ r.frameInTrack ∧
          r.frameInTrack ≤ toFrames (getTrackDuration d tr.audioFile) fps := by
  intro l
  induction l with
  | nil =>
    intro acc _ _ r h
    exact absurd h (by simp [globalTrackGo])
  | cons ci rest ih =>
    intro acc hval hacc r h
    rw [globalTrackGo_cons] at h
    by_cases hc : frame < acc + toFrames (getChapterDuration chapters d (ci : ℤ)) fps
    · rw [if_pos hc] at h
      have hci : ci < chapters.length := hval ci (by simp)
      obtain ⟨ch, hch⟩ : ∃ ch, chapters.get? ci = some ch :=
        ⟨_, List.get?_eq_get hci⟩
      have hnech : ch.tracks ≠ [] := hne ch (List.get?_mem hch)
      obtain ⟨r0, hr0, tr, htr, h0, hle⟩ :=
        getCurrentTrackAtFrame_sound chapters d fps hd hfps ci ch hch hnech
          (frame - acc) (by omega)
      rw [hr0] at h
      cases h
      exact ⟨ch, hch, tr, htr, h0, hle⟩
    · rw [if_neg hc] at h
      exact ih _ (fun x hx => hval x (by simp [hx])) (by omega) r h

/-- C3 counterexample: a one-chapter configuration with one track whose
stored duration is negative (−5 s) while the chapter entry says 10 s: at
absolute frame 0 the function returns `frameInTrack = -150 < 0`, an
out-of-range triple, so the claim fails for arbitrary duration tables (it
needs nonnegative durations). -/
theorem global_track_triple_counterexample :
    (∀ ch ∈ [cexChapter], ch.tracks ≠ []) ∧ (0 : ℤ) ≤ 0 ∧
    getGlobalTrackAtFrame [cexChapter] (some dC3) 0 30 =
      some { chapterIndex := 0, trackIndex := 0, frameInTrack := -150 } ∧
    ((-150 : ℤ) < 0) := by
  have htd : getTrackDuration (some dC3) "a.mp3" = -5 := by
    norm_num [getTrackDuration, dC3, truthy]
  have hfr : findTrackAtFrame (some dC3) 30 (0 - 0) cexChapter.tracks 0 0 = none := by
    show (if (0 - 0 : ℤ) < 0 + toFrames (getTrackDuration (some dC3) "a.mp3") 30 then
        some { trackIndex := 0, frameInTrack := 0 - 0 - 0 }
      else findTrackAtFrame (some dC3) 30 (0 - 0) []
        (0 + toFrames (getTrackDuration (some dC3) "a.mp3") 30) (0 + 1)) = none
    rw [htd, if_neg (by norm_num [toFrames, round_eq])]
    rfl
  have hct : getCurrentTrackAtFrame [cexChapter] (some dC3) ((0 : ℕ) : ℤ) (0 - 0) 30 =
      some { trackIndex := cexChapter.tracks.length - 1
           , frameInTrack := toFrames (getTrackDuration (some dC3) "a.mp3") 30 } := by
    unfold getCurrentTrackAtFrame
    rw [if_neg (by decide)]
    simp only [Int.toNat_natCast]
    show (match findTrackAtFrame (some dC3) 30 (0 - 0) cexChapter.tracks 0 0 with
      | some trackInfo => some trackInfo
      | none =>
        match cexChapter.tracks.getLast? with
        | some lastTrack =>
          some { trackIndex := cexChapter.tracks.length - 1
               , frameInTrack := toFrames (getTrackDuration (some dC3) lastTrack.audioFile) 30 }
        | none => none) =
      some { trackIndex := cexChapter.tracks.length - 1
           , frameInTrack := toFrames (getTrackDuration (some dC3) "a.mp3") 30 }
    rw [hfr]
    rfl
  refine ⟨by decide, le_refl 0, ?_, by norm_num⟩
  show globalTrackGo [cexChapter] (some dC3) 30 0 (List.range 1) 0 =
    some { chapterIndex := 0, trackIndex := 0, frameInTrack := -150 }
  have hdur : getChapterDuration [cexChapter] (some dC3) ((0 : ℕ) : ℤ) = 10 :=
    getChapterDuration_entry [cexChapter] dC3 0 10 (by decide) rfl
  rw [show List.range 1 = [0] from rfl, globalTrackGo_cons, hdur,
    if_pos (by norm_num [toFrames, round_eq]), hct, htd]
  norm_num [cexChapter, toFrames, round_eq]

/-- C3 amended: for every nonnegative absolute frame, every chapter list
whose chapters all have at least one track, every duration table whose
stored durations are nonnegative, and every nonnegative fps, whenever
`getGlobalTrackAtFrame` returns a triple it is in range: the chapter index
addresses a chapter, the track index addresses one of its tracks, and
`0 ≤ frameInTrack ≤` that track's frame duration. -/
theorem global_track_triple_in_range (chapters : List Chapter)
    (d : Option AudioDurationsData) (fps : ℚ) (frame : ℤ) (hframe : 0 ≤ frame)
    (hne : ∀ ch ∈ chapters, ch.tracks ≠ []) (hd : NonnegTable d) (hfps : 0 ≤ fps)
    (r : GlobalTrackPos) (h : getGlobalTrackAtFrame chapters d frame fps = some r) :
    r.chapterIndex < chapters.length ∧
    ∃ ch, chapters.get? r.chapterIndex = some ch ∧
      r.trackIndex < ch.tracks.length ∧
      ∃ tr, ch.tracks.get? r.trackIndex = some tr ∧
        0 ≤ r.frameInTrack ∧
        r.frameInTrack ≤ toFrames (getTrackDuration d tr.audioFile) fps := by
  have h' : globalTrackGo chapters d fps frame (List.range chapters.length) 0 = some r := h
  obtain ⟨ch, hch, tr, htr, h0, hle⟩ :=
    globalTrackGo_sound chapters d fps frame hd hfps hne (List.range chapters.length) 0
      (fun ci hci => List.mem_range.mp hci) hframe r h'
  exact ⟨(List.get?_eq_some.mp hch).1, ch, hch, (List.get?_eq_some.mp htr).1, tr, htr,
    h0, hle⟩

/-- C3 amended witness: the synthetic one-track chapter with the absent
(all-fallback, hence nonnegative) duration table at frame 0. -/
theorem global_track_triple_in_range_witness :
    getGlobalTrackAtFrame [cexChapter] none 0 30 =
      some { chapterIndex := 0, trackIndex := 0, frameInTrack := 0 } ∧
    ((0 : ℕ) < [cexChapter].length ∧
     ∃ ch, [cexChapter].get? (0 : ℕ) = some ch ∧
       (0 : ℕ) < ch.tracks.length ∧
       ∃ tr, ch.tracks.get? (0 : ℕ) = some tr ∧
         (0 : ℤ) ≤ 0 ∧
         (0 : ℤ) ≤ toFrames (getTrackDuration none tr.audioFile) 30) := by
  have hdur : getChapterDuration [cexChapter] none ((0 : ℕ) : ℤ) = 180 := by
    rw [getChapterDuration_eval [cexChapter] none 0 _ rfl (fun a ha => nomatch ha)]
    norm_num [getTrackDuration, FALLBACK_TRACK_DURATION_SECONDS, cexChapter]
  have hfr : findTrackAtFrame none 30 (0 - 0) cexChapter.tracks 0 0 =
      some { trackIndex := 0, frameInTrack := 0 - 0 - 0 } := by
    show (if (0 - 0 : ℤ) < 0 + toFrames (getTrackDuration none "a.mp3") 30 then
        some { trackIndex := 0, frameInTrack := 0 - 0 - 0 }
      else findTrackAtFrame none 30 (0 - 0) []
        (0 + toFrames (getTrackDuration none "a.mp3") 30) (0 + 1)) =
      some { trackIndex := 0, frameInTrack := 0 - 0 - 0 }
    rw [if_pos (by norm_num [getTrackDuration, FALLBACK_TRACK_DURATION_SECONDS,
      toFrames, round_eq])]
  have hct : getCurrentTrackAtFrame [cexChapter] none ((0 : ℕ) : ℤ) (0 - 0) 30 =
      some { trackIndex := 0, frameInTrack := 0 - 0 - 0 } := by
    unfold getCurrentTrackAtFrame
    rw [if_neg (by decide)]
    simp only [Int.toNat_natCast]
    show (match findTrackAtFrame none 30 (0 - 0) cexChapter.tracks 0 0 with
      | some trackInfo => some trackInfo
      | none =>
        match cexChapter.tracks.getLast? with
        | some lastTrack =>
          some { trackIndex := cexChapter.tracks.length - 1
               , frameInTrack := toFrames (getTrackDuration none lastTrack.audioFile) 30 }
        | none => none) =
      some { trackIndex := 0, frameInTrack := 0 - 0 - 0 }
    rw [hfr]
  have hres : getGlobalTrackAtFrame [cexChapter] none 0 30 =
      some { chapterIndex := 0, trackIndex := 0, frameInTrack := 0 } := by
    show globalTrackGo [cexChapter] none 30 0 (List.range 1) 0 =
      some { chapterIndex := 0, trackIndex := 0, frameInTrack := 0 }
    rw [show List.range 1 = [0] from rfl, globalTrackGo_cons, hdur,
      if_pos (by norm_num [toFrames, round_eq]), hct]
    norm_num
  exact ⟨hres, global_track_triple_in_range [cexChapter] none 30 0 (le_refl 0)
    (by decide) trivial (by norm_num) _ hres⟩


/-! ### C9 — same-pair seek does not reload -/

/-- C9: a seek whose clamped target resolves to the currently loaded
(chapter, track) pair adjusts only the audio element's intra-track time and
the published global progress; the audio source, the loaded-track record
and the published chapter/track indices are unchanged (no reload of the
asset). -/
theorem seek_same_pair_no_reload (chapters : List Chapter) (d : Option AudioDurationsData)
    (st : SeekState) (targetProgress : ℚ) (ci : ℕ) (ti : ℤ)
    (hAudio : st.hasAudio = true) (hStarted : st.isAudioStarted = true)
    (hres : getCurrentAudioTrack chapters d
      (max 0 (min targetProgress (getTotalDuration chapters d))) =
      some { chapterIndex := ci, trackIndex := ti })
    (hcur : st.currentAudioIndex = some (ci, ti))
    (st' : SeekState) (h : handleSeek chapters d st targetProgress = some st') :
    st'.audioSrc = st.audioSrc ∧
    st'.currentAudioIndex = st.currentAudioIndex ∧
    st'.currentChapterIndex = st.currentChapterIndex ∧
    st'.currentTrackIndex = st.currentTrackIndex ∧
    st'.currentProgress = max 0 (min targetProgress (getTotalDuration chapters d)) := by
  unfold handleSeek at h
  rw [hAudio, hStarted] at h
  rw [if_neg (by simp)] at h
  simp only [] at h
  rw [hres] at h
  simp only [] at h
  cases hch : chapters.get? ci with
  | none =>
    rw [hch] at h
    exact absurd h (by simp)
  | some chapter =>
    rw [hch] at h
    simp only [] at h
    cases htr : (if (0 : ℤ) ≤ ti then chapter.tracks.get? ti.toNat else none) with
    | none =>
      rw [htr] at h
      exact absurd h (by simp)
    | some track =>
      rw [htr] at h
      simp only [] at h
      rw [hcur] at h
      simp only [bne_self_eq_false, Bool.or_self, Bool.false_eq_true, if_false] at h
      obtain rfl := (Option.some.inj h).symm
      refine ⟨rfl, ?_, rfl, rfl, rfl⟩
      rw [hcur]

/-- The synthetic one-track chapter used by the C9 witness. -/
def seekChapter : Chapter :=
  { id := 1, title := "t", subtitle := "s", description := "d", visualPrompt := "v"
  , colorTheme := { bg := "b", text := "t", accent := "a" }
  , quote := "q", video := "w", audioTrack := "m"
  , tracks := [ { artist := "p", title := "q", reason := "r", audioFile := "s.mp3" } ] }

/-- The pre-seek component state used by the C9 witness: track (0,0) of
`seekChapter` is loaded and playback has started. -/
def seekState0 : SeekState :=
  { audioSrc := "s.mp3", audioCurrentTime := 0, currentAudioIndex := some (0, 0)
  , currentChapterIndex := 0, currentTrackIndex := 0, currentProgress := 0
  , isAudioStarted := true, hasAudio := true }

/-- C9 witness: seeking to 10 s inside the single 180 s track adjusts only
the intra-track time and the progress. -/
theorem seek_same_pair_no_reload_witness :
    ∃ st2, handleSeek [seekChapter] none seekState0 10 = some st2 ∧
      (st2.audioSrc = seekState0.audioSrc ∧
       st2.currentAudioIndex = seekState0.currentAudioIndex ∧
       st2.currentChapterIndex = seekState0.currentChapterIndex ∧
       st2.currentTrackIndex = seekState0.currentTrackIndex ∧
       st2.currentProgress = max 0 (min 10 (getTotalDuration [seekChapter] none))) := by
  have hdur : getChapterDuration [seekChapter] none ((0 : ℕ) : ℤ) = 180 := by
    rw [getChapterDuration_eval [seekChapter] none 0 _ rfl (fun a ha => nomatch ha)]
    norm_num [seekChapter, getTrackDuration, FALLBACK_TRACK_DURATION_SECONDS]
  have htot : getTotalDuration [seekChapter] none = 180 := by
    rw [getTotalDuration_none, foldl_add_getChapterDuration]
    rw [show List.range (List.length [seekChapter]) = [0] from rfl]
    simp only [List.map_cons, List.map_nil, List.sum_cons, List.sum_nil]
    rw [hdur]
    norm_num
  have hclamp : max 0 (min 10 (getTotalDuration [seekChapter] none)) = (10 : ℚ) := by
    rw [htot]
    norm_num
  have hfa : findAudioTrack none (10 - 0) seekChapter.tracks 0 0 = some 0 := by
    show (if (10 - 0 : ℚ) < 0 + getTrackDuration none "s.mp3" then some 0
      else findAudioTrack none (10 - 0) [] (0 + getTrackDuration none "s.mp3") (0 + 1)) = some 0
    rw [if_pos (by norm_num [getTrackDuration, FALLBACK_TRACK_DURATION_SECONDS])]
  have hres : getCurrentAudioTrack [seekChapter] none
      (max 0 (min 10 (getTotalDuration [seekChapter] none))) =
      some { chapterIndex := 0, trackIndex := 0 } := by
    rw [hclamp]
    show audioTrackGo [seekChapter] none 10 (List.range 1) 0 =
      some { chapterIndex := 0, trackIndex := 0 }
    rw [show List.range 1 = [0] from rfl, audioTrackGo_cons,
      show [seekChapter].get? 0 = some seekChapter from rfl]
    simp only []
    rw [hdur, if_pos (by norm_num), hfa]
    norm_num
  have hex : ∃ st2, handleSeek [seekChapter] none seekState0 10 = some st2 := by
    unfold handleSeek
    rw [if_neg (by norm_num [seekState0])]
    simp only []
    rw [hres]
    simp only []
    rw [show [seekChapter].get? 0 = some seekChapter from rfl]
    simp only []
    rw [show (if (0 : ℤ) ≤ (0 : ℤ) then seekChapter.tracks.get? (0 : ℤ).toNat else none) =
      some { artist := "p", title := "q", reason := "r", audioFile := "s.mp3" } from rfl]
    simp only []
    exact ⟨_, rfl⟩
  obtain ⟨st2, hst2⟩ := hex
  exact ⟨st2, hst2, seek_same_pair_no_reload [seekChapter] none seekState0 10 0 0
    rfl rfl hres rfl st2 hst2⟩

end Pilgrim
